import Mathlib

/-!
Verification development for the `mb_grep` command-line search tool.

The C++ sources are embedded shallowly:

* `src/matcher.h` / matcher implementation file: `SubstringMatcher`, `RegexMatcher`
  (the `std::regex` engine itself is external to the repository and is modelled by
  an abstract `RegexEngine` record);
* `src/utils.h` / utils implementation file: `is_binary_file`, `contains_regex_chars`;
* `src/main.cpp`: `SearchOptions`, `extract_arguments`, `search_file`,
  `walk_directory`, `main`;
* `src/thread_pool.cpp`: `ThreadPool` (constructor worker loop, destructor, `submit`),
  embedded as a labelled transition system over `PoolState`.

Strings are modelled as Lean `String` (a wrapper around `List Char`); the byte-level
operations of the C++ code (`tolower`, `std::string::find`) act position-wise on the
character list, matching the C++ byte loops on the ASCII range the spec talks about.
-/

namespace MbGrep

/-! ## Character and string primitives -/

/-- Double-quote character, written via its code point. -/
def dquote : Char := Char.ofNat 34

/-- Backslash character, written via its code point. -/
def bslash : Char := Char.ofNat 92

/-- C-locale `tolower` as applied by `std::ranges::transform(..., tolower)` in
`SubstringMatcher`: characters `A`..`Z` are mapped to `a`..`z`, everything else
is unchanged. -/
def ascii_tolower (c : Char) : Char :=
  if 65 ≤ c.toNat ∧ c.toNat ≤ 90 then Char.ofNat (c.toNat + 32) else c

/-- Lowercasing a whole string, as done by
`std::ranges::transform(s, s.begin(), tolower)`. -/
def lowerString (s : String) : String :=
  String.mk (s.data.map ascii_tolower)

/-- Occurrence test behind `std::string::find(needle) != std::string::npos`:
`findSub hay needle = true` iff `needle` occurs contiguously in `hay`.
An empty needle is found at position 0, as `std::string::find` does. -/
def findSub (hay needle : List Char) : Bool :=
  if needle.isPrefixOf hay then true
  else
    match hay with
    | [] => false
    | _ :: t => findSub t needle

/-- String-level wrapper of `findSub`, the model of
`line.find(query_) != std::string::npos`. -/
def strContains (hay needle : String) : Bool :=
  findSub hay.data needle.data

/-! ## SubstringMatcher (src/matcher.h, matcher implementation file) -/

/-- State of the C++ `SubstringMatcher` after construction. -/
structure SubstringMatcher where
  query_ : String
  ignore_case_ : Bool
deriving DecidableEq

/-- Constructor of `SubstringMatcher`: stores the query, lowercasing it first
when `ignore_case` is set (`std::ranges::transform(query_, query_.begin(), tolower)`). -/
def SubstringMatcher.make (query : String) (ignore_case : Bool) : SubstringMatcher :=
  { query_ := if ignore_case then lowerString query else query
    ignore_case_ := ignore_case }

/-- The `SubstringMatcher::match` member: with `ignore_case_` the candidate line is
lowercased before the `find`; otherwise the line is searched as is. -/
def SubstringMatcher.matchLine (m : SubstringMatcher) (line : String) : Bool :=
  if m.ignore_case_ then strContains (lowerString line) m.query_
  else strContains line m.query_

/-! ## RegexMatcher and matcher creation

`std::regex` is a standard-library component, external to this repository.
It is modelled by an abstract engine: `valid` says whether
`std::regex(query, flags)` construction succeeds (otherwise it raises
`std::regex_error`), `search` models `std::regex_search` on a compiled pattern. -/

/-- Abstract model of the external `std::regex` facility. -/
structure RegexEngine where
  valid : String → Bool → Bool
  search : String → Bool → String → Bool

/-- A constructed matcher, the closed variant behind the `IMatcher` hierarchy:
either a `SubstringMatcher` value or a successfully compiled `RegexMatcher`
remembering its query and case flag. -/
inductive MatcherImpl
  | substring (m : SubstringMatcher)
  | regex (query : String) (icase : Bool)
deriving DecidableEq

/-- Dispatch of `IMatcher::match` over the two implementations. -/
def MatcherImpl.matchLine (eng : RegexEngine) : MatcherImpl → String → Bool
  | .substring m, line => m.matchLine line
  | .regex q ic, line => eng.search q ic line

/-! ## SearchOptions and argument extraction (src/main.cpp) -/

/-- The `SearchOptions` aggregate of `src/main.cpp`. -/
structure SearchOptions where
  query : String := ""
  root_path : String := ""
  use_regex : Bool := false
  ignore_case : Bool := false
  file_extension : Option String := none

/-- One iteration of the flag loop in `extract_arguments`
(`--regex`, `--ignore-case`, `--ext=...`; unknown arguments are ignored). -/
def parse_flag (o : SearchOptions) (arg : String) : SearchOptions :=
  if arg = "--regex" then { o with use_regex := true }
  else if arg = "--ignore-case" then { o with ignore_case := true }
  else if "--ext=".isPrefixOf arg then { o with file_extension := some (arg.drop 6) }
  else o

/-- The `extract_arguments` function: `argv[1]` is the query, `argv[2]` the root
path, the remaining arguments are folded through the flag loop. -/
def extract_arguments (args : List String) : SearchOptions :=
  (args.drop 3).foldl parse_flag
    { query := args.getD 1 "", root_path := args.getD 2 "" }

/-- The character class of the raw-string regex in `contains_regex_chars`:
`. ^ $ * + ? { } [ ] \ | ( )` (braces and backslash written via code points). -/
def regex_meta_chars : List Char :=
  ['.', '^', '$', '*', '+', '?', Char.ofNat 123, Char.ofNat 125,
   '[', ']', Char.ofNat 92, '|', '(', ')']

/-- The `contains_regex_chars` utility: a regex search for the metacharacter
class succeeds iff some character of the query is in the class. -/
def contains_regex_chars (q : String) : Bool :=
  q.data.any (fun c => regex_meta_chars.contains c)

/-- The `create_matcher` factory: with `--regex` a `RegexMatcher` is constructed
(whose `std::regex` constructor may raise `std::regex_error`, modelled as
`Except.error`; the message text of `what()` is implementation-defined and
modelled by the fixed token `"regex_error"`); otherwise a `SubstringMatcher`,
whose construction never fails. -/
def create_matcher (eng : RegexEngine) (o : SearchOptions) :
    Except String MatcherImpl :=
  if o.use_regex then
    if eng.valid o.query o.ignore_case then Except.ok (.regex o.query o.ignore_case)
    else Except.error "regex_error"
  else Except.ok (.substring (SubstringMatcher.make o.query o.ignore_case))

/-! ## Binary-file detection and directory walking -/

/-- The `is_binary_file` utility: the first 512 bytes of the file are read
(`file.read(buffer, 512)`; `gcount` bytes arrive, i.e. all bytes when the file
is shorter) and the file is binary iff a NUL byte occurs among them. Bytes are
modelled as `Nat`; a file that cannot be opened delivers no bytes. -/
def is_binary_file (bytes : List Nat) : Bool :=
  (bytes.take 512).any (fun b => b == 0)

/-- One filesystem entry as seen by `fs::recursive_directory_iterator`.
`bytes` are the raw bytes delivered when the file is opened in binary mode,
`ext` is what `path.extension()` reports, and `lines` is the line list delivered
by `std::getline` when the file opens as text — `none` when the open fails. -/
structure DirEntry where
  path : String
  is_regular_file : Bool
  bytes : List Nat
  ext : String
  lines : Option (List String)
deriving DecidableEq

/-- The filter body of `walk_directory`: an entry survives iff it is a regular
file, is not flagged binary, and matches the optional extension constraint.
The binary test comes before the extension test, exactly as in the source. -/
def entry_kept (o : SearchOptions) (e : DirEntry) : Bool :=
  e.is_regular_file && !is_binary_file e.bytes &&
    (match o.file_extension with
     | none => true
     | some v => v == e.ext)

/-- The `walk_directory` traversal: every surviving entry is submitted as one
scan task, in discovery order. The returned list is the list of submitted
scan tasks. -/
def walk_directory (o : SearchOptions) (entries : List DirEntry) : List DirEntry :=
  entries.filter (entry_kept o)

/-! ## File scanning and the output record (src/main.cpp, search_file) -/

/-- Escape step of `std::quoted`: embedded double quotes and backslashes are
preceded by a backslash. -/
def quote_escape : List Char → List Char
  | [] => []
  | c :: cs =>
      if c = bslash ∨ c = dquote then bslash :: c :: quote_escape cs
      else c :: quote_escape cs

/-- What `std::cout << filePath` prints for an `std::filesystem::path`:
the path stream-insertion operator writes `std::quoted(p.string())`, i.e. the
path surrounded by double quotes with embedded quotes and backslashes escaped. -/
def path_out (p : String) : String :=
  String.mk (dquote :: (quote_escape p.data ++ [dquote]))

/-- One output record of `search_file`:
`filePath << ":" << line_num << ": " << line` (followed by `std::endl`;
records are modelled as lines, the newline being the line separator). -/
def format_record (path : String) (line_num : Nat) (line : String) : String :=
  path_out path ++ ":" ++ toString line_num ++ ": " ++ line

/-- The `while (std::getline(...))` loop of `search_file`: `line_num` starts
at 0 and is incremented before the match test, so lines are numbered from 1;
each matching line produces exactly one record. -/
def search_lines (path : String) (m : String → Bool) : Nat → List String → List String
  | _, [] => []
  | n, l :: ls =>
      if m l then format_record path (n + 1) l :: search_lines path m (n + 1) ls
      else search_lines path m (n + 1) ls

/-- The `search_file` task body: if the `std::ifstream` fails to open
(`lines = none`) the function returns immediately with no output and no error;
otherwise the line loop runs. -/
def search_file (path : String) (lines : Option (List String)) (m : String → Bool) :
    List String :=
  match lines with
  | none => []
  | some ls => search_lines path m 0 ls

/-- Specification-side description of a file scan's output, written after the
amended C4 claim for comparison with `search_file`: one record per matching
line, lines numbered from 1, each record carrying the quoted path form that the
stream insertion of `std::filesystem::path` produces. -/
def expected_records (path : String) (m : String → Bool) (ls : List String) :
    List String :=
  (List.range ls.length).filterMap (fun i =>
    if m (ls.getD i "") then some (format_record path (i + 1) (ls.getD i ""))
    else none)

/-- Concatenated output of the scan tasks produced by `walk_directory`.
The `OutputMutex` serializes whole records across workers; the program output is
the collection of records, ordered here by submission order of the tasks. -/
def run_search (eng : RegexEngine) (o : SearchOptions) (mi : MatcherImpl)
    (entries : List DirEntry) : List String :=
  ((walk_directory o entries).map
    (fun e => search_file e.path e.lines (MatcherImpl.matchLine eng mi))).flatten

/-! ## The main driver (src/main.cpp, main) -/

/-- The usage text printed by `help`. -/
def usage_text (program_name : String) : String :=
  "Usage: " ++ program_name ++ " <query> <directory> [--regex] [--ignore-case] [--ext=.txt]"

/-- The look-alike warning printed when a regex-looking query is used without
`--regex`. -/
def warning_text (q : String) : String :=
  "Warning: The pattern " ++ String.mk [dquote] ++ q ++ String.mk [dquote] ++
    " looks like a regular expression, but --regex flag was not set."

/-- Observable outcome of one `main` run: the process exit code, the lines
written to standard error, the match records written to standard output, and
the paths submitted to the thread pool as scan tasks. -/
structure RunOutcome where
  exitCode : Nat
  stdoutLines : List String
  stderrLines : List String
  tasks : List String
deriving DecidableEq

/-- Body of `main` after the argument-count check, i.e. the `try` block:
the look-alike guard returns 1; a `std::regex_error` escaping `create_matcher`
is caught by the top-level handler, which prints `Exception: ...` to standard
error and then falls through to `return 0`; otherwise the pool is built, the
walker submits one task per surviving file and `main` returns 0. -/
def mainRunChecked (eng : RegexEngine) (o : SearchOptions)
    (entries : List DirEntry) : RunOutcome :=
  if !o.use_regex && contains_regex_chars o.query then
    { exitCode := 1, stdoutLines := [], stderrLines := [warning_text o.query], tasks := [] }
  else
    match create_matcher eng o with
    | Except.error e =>
        { exitCode := 0, stdoutLines := [], stderrLines := ["Exception: " ++ e], tasks := [] }
    | Except.ok mi =>
        { exitCode := 0
          stdoutLines := run_search eng o mi entries
          stderrLines := []
          tasks := (walk_directory o entries).map DirEntry.path }

/-- The `main` function: with fewer than 3 arguments the usage text goes to
standard error and the exit code is 1; otherwise the arguments are parsed and
the checked body runs. -/
def mainRun (eng : RegexEngine) (args : List String) (entries : List DirEntry) :
    RunOutcome :=
  if args.length < 3 then
    { exitCode := 1, stdoutLines := [],
      stderrLines := [usage_text (args.getD 0 "")], tasks := [] }
  else
    mainRunChecked eng (extract_arguments args) entries

/-- A regex engine that accepts every pattern; used where the run never reaches
the regex path. -/
def trivialEngine : RegexEngine :=
  { valid := fun _ _ => true, search := fun _ _ _ => false }

/-- A regex engine on which every pattern fails to compile, standing for a run
whose query is malformed. -/
def failingEngine : RegexEngine :=
  { valid := fun _ _ => false, search := fun _ _ _ => false }

/-! ## The worker loop with raising tasks (src/thread_pool.cpp, constructor)

The worker body is
`while (true) { ... wait ...; if (stop_flag_ && tasks_.empty()) return;`
`task = move(front); pop; task(); }` — the call `task()` has no surrounding
`try`/`catch`. The drain of a queue by one worker after the stop flag is set is
deterministic and is embedded below, with each task abstracted by whether its
execution completes or raises. -/

/-- Whether a task body returns normally or raises an exception. -/
inductive TaskOutcome
  | completed
  | raised
deriving DecidableEq

/-- How the worker loop ends: the `return` taken on `stop_flag_ && tasks_.empty()`,
or an exception of a task propagating out of the loop (nothing in the loop
catches it, so it leaves the thread function and `std::terminate` is called). -/
inductive LoopExit
  | normalReturn
  | exceptionEscaped (t : Nat)
deriving DecidableEq

/-- One worker draining the queue after the stop flag is set: pairs the list of
tasks whose execution completed with the way the loop ended. A raising task ends
the loop at once; the tasks still queued behind it are not executed. -/
def worker_loop_drain (beh : Nat → TaskOutcome) : List Nat → List Nat × LoopExit
  | [] => ([], LoopExit.normalReturn)
  | t :: rest =>
      match beh t with
      | TaskOutcome.raised => ([], LoopExit.exceptionEscaped t)
      | TaskOutcome.completed =>
          let r := worker_loop_drain beh rest
          (t :: r.1, r.2)

/-! ## The thread pool as a labelled transition system (src/thread_pool.cpp)

Shared state guarded by `queue_mutex_` changes atomically at lock granularity:

* `dequeue`: a worker past the condition wait finds the queue non-empty, moves
  the front task into its hand and releases the lock — `task()` itself then runs
  outside the lock, so holding and finishing are separate steps;
* `finishTask`: the worker's `task()` call returns normally and the worker
  loops back;
* `raiseTask`: the worker's `task()` call raises an exception; the call has no
  surrounding try/catch, so the exception propagates out of the worker loop and
  out of the thread function, and the worker crashes (in the running program
  `std::terminate` then ends the whole process; the model only marks this
  worker crashed and leaves the other components' steps available — an
  over-approximation that adds behaviors, never removes any, so universal
  statements proved over the model cover the program);
* `exitLoop`: a worker past the wait sees `stop_flag_ && tasks_.empty()` and
  returns from the thread function;
* `submit`: `tasks_.push` under the lock plus `notify_one` — note the source
  performs no check of `stop_flag_` here;
* `setStop`: the destructor sets `stop_flag_` and calls `notify_all`.

Whether a task's execution completes or raises is a property of the submitted
closure, not of the pool, and is modelled — exactly as in `worker_loop_drain` —
by a fixed behavior map `beh : Nat → TaskOutcome` parameterizing the transition
system.

A worker whose condition-wait predicate `stop_flag_ || !tasks_.empty()` is false
has no enabled step, modelling the blocked wait. `executed` and `submitted` are
ghost logs: `executed` records `(worker, task)` for every completed `task()`
call, `submitted` records every task passed to `submit`. Tasks are identified
by `Nat` labels. -/

/-- State of one worker thread of the pool: waiting or looping (`idle`),
running a dequeued task (`holding`), returned normally from the thread function
(`done`), or aborted by an exception escaping `task()` (`crashed`). -/
inductive WorkerState
  | idle
  | holding (t : Nat)
  | done
  | crashed
deriving DecidableEq

/-- Whether the worker currently holds a dequeued task. -/
def WorkerState.isHoldingB : WorkerState → Bool
  | .holding _ => true
  | _ => false

/-- Whether the worker has not yet returned normally from the thread function. -/
def WorkerState.notDoneB : WorkerState → Bool
  | .done => false
  | _ => true

/-- Global state of the `ThreadPool` plus ghost logs. -/
structure PoolState where
  queue : List Nat
  executed : List (Nat × Nat)
  submitted : List Nat
  stop : Bool
  workers : List WorkerState
deriving DecidableEq

/-- The pool right after the constructor ran: empty queue, stop flag false,
`num_threads` workers in their wait loop. -/
def initState (n : Nat) : PoolState :=
  { queue := [], executed := [], submitted := [], stop := false,
    workers := List.replicate n WorkerState.idle }

/-- The `ThreadPool::submit` member: push the task at the back of the queue
(and notify one worker). There is no stop-flag check. -/
def PoolState.submitTask (s : PoolState) (t : Nat) : PoolState :=
  { s with queue := s.queue ++ [t], submitted := s.submitted ++ [t] }

/-- The first statement of the destructor: `stop_flag_ = true`
(followed by `notify_all`). -/
def PoolState.setStopFlag (s : PoolState) : PoolState :=
  { s with stop := true }

/-- Step labels of the pool transition system. -/
inductive Act
  | submit (t : Nat)
  | setStop
  | dequeue (i : Nat)
  | finishTask (i : Nat)
  | raiseTask (i : Nat)
  | exitLoop (i : Nat)
deriving DecidableEq

/-- Labels of steps taken by worker threads (as opposed to the submitting
caller and the destructor). -/
def Act.isWorker : Act → Bool
  | .dequeue _ => true
  | .finishTask _ => true
  | .raiseTask _ => true
  | .exitLoop _ => true
  | _ => false

/-- One atomic step of the pool, faithful to the worker loop
`wait(lock, stop_flag_ || !tasks_.empty()); if (stop_flag_ && tasks_.empty())`
`return; task = move(front); pop;` `task();`, to `submit`, and to the
destructor's `stop_flag_ = true`. The `task()` call has no surrounding
try/catch: when the held task's execution raises (`beh t = raised`), the
exception escapes the worker loop and the worker crashes (`raiseTask`); only a
normally completing call (`beh t = completed`) is logged as executed
(`finishTask`). -/
inductive PoolStep (beh : Nat → TaskOutcome) : PoolState → Act → PoolState → Prop
  | submit (s : PoolState) (t : Nat) :
      PoolStep beh s (Act.submit t) (s.submitTask t)
  | setStop (s : PoolState) :
      PoolStep beh s Act.setStop s.setStopFlag
  | dequeue (s : PoolState) (i t : Nat) (rest : List Nat)
      (hw : s.workers[i]? = some WorkerState.idle)
      (hq : s.queue = t :: rest) :
      PoolStep beh s (Act.dequeue i)
        { s with queue := rest, workers := s.workers.set i (WorkerState.holding t) }
  | finishTask (s : PoolState) (i t : Nat)
      (hw : s.workers[i]? = some (WorkerState.holding t))
      (hbeh : beh t = TaskOutcome.completed) :
      PoolStep beh s (Act.finishTask i)
        { s with executed := s.executed ++ [(i, t)],
                 workers := s.workers.set i WorkerState.idle }
  | raiseTask (s : PoolState) (i t : Nat)
      (hw : s.workers[i]? = some (WorkerState.holding t))
      (hbeh : beh t = TaskOutcome.raised) :
      PoolStep beh s (Act.raiseTask i)
        { s with workers := s.workers.set i WorkerState.crashed }
  | exitLoop (s : PoolState) (i : Nat)
      (hw : s.workers[i]? = some WorkerState.idle)
      (hstop : s.stop = true)
      (hq : s.queue = []) :
      PoolStep beh s (Act.exitLoop i)
        { s with workers := s.workers.set i WorkerState.done }

/-- Any step of the system. -/
def AnyStep (beh : Nat → TaskOutcome) (s s' : PoolState) : Prop :=
  ∃ a, PoolStep beh s a s'

/-- A step other than the destructor's flag write: this is the transition
relation while the pool is alive (the program sets the stop flag only when the
pool object is destroyed). -/
def RunStep (beh : Nat → TaskOutcome) (s s' : PoolState) : Prop :=
  ∃ a, a ≠ Act.setStop ∧ PoolStep beh s a s'

/-- A step taken by a worker thread; during the destructor's `join` loop these
are the only steps (nobody submits, the flag is already set). -/
def WStep (beh : Nat → TaskOutcome) (s s' : PoolState) : Prop :=
  ∃ a, Act.isWorker a = true ∧ PoolStep beh s a s'

/-- All workers have returned from the thread function, i.e. every `join` in
the destructor has completed and the destructor returns. -/
def AllDone (s : PoolState) : Prop :=
  ∀ w ∈ s.workers, w = WorkerState.done

/-- Number of completed executions of task `t` in the ghost log. -/
def execCount (s : PoolState) (t : Nat) : Nat :=
  (s.executed.map Prod.snd).count t

/-- Number of workers currently holding task `t`. -/
def heldCount (s : PoolState) (t : Nat) : Nat :=
  s.workers.countP (fun w => w == WorkerState.holding t)

/-- Conservation of tasks: every submitted occurrence of a task is pending in
the queue, held by a worker, or already executed. -/
def CountsOK (s : PoolState) : Prop :=
  ∀ t, execCount s t + s.queue.count t + heldCount s t = s.submitted.count t

/-- Invariant of the pool while it is alive: the stop flag is unset, the worker
count is the constructor's `num_threads`, no worker has exited or crashed, and
tasks are conserved. -/
def Inv1 (n : Nat) (s : PoolState) : Prop :=
  s.stop = false ∧ s.workers.length = n ∧
    (∀ w ∈ s.workers, w ≠ WorkerState.done ∧ w ≠ WorkerState.crashed) ∧
    CountsOK s

/-- Invariant of the drain phase of a run whose tasks all complete normally:
the stop flag is set, tasks are conserved, no worker has crashed, and a
non-empty queue guarantees a worker that has not exited (so the pending work
cannot be orphaned). -/
def Inv2 (s : PoolState) : Prop :=
  s.stop = true ∧ CountsOK s ∧
    (s.queue ≠ [] → ∃ w ∈ s.workers, w ≠ WorkerState.done) ∧
    (∀ w ∈ s.workers, w ≠ WorkerState.crashed)

/-- Termination measure of the drain phase: each worker step strictly
decreases it. -/
def poolMeasure (s : PoolState) : Nat :=
  2 * s.queue.length + s.workers.countP WorkerState.isHoldingB +
    s.workers.countP WorkerState.notDoneB

/-! ## Theorems -/

/-- An empty needle is found in every haystack, as `std::string::find` returns
position 0 for the empty pattern. -/
theorem findSub_nil (hay : List Char) : findSub hay [] = true := by
  cases hay <;> simp [findSub, List.isPrefixOf]

/-- A `SubstringMatcher` built from the empty query accepts every line, for
either case setting. -/
theorem make_empty_matches (ic : Bool) (l : String) :
    (SubstringMatcher.make "" ic).matchLine l = true := by
  cases ic <;>
    simp [SubstringMatcher.make, SubstringMatcher.matchLine, strContains,
      lowerString, findSub_nil]

/-- With a matcher that accepts every line, the `search_file` loop emits one
record per line of the file. -/
theorem search_lines_length_all (path : String) (m : String → Bool)
    (hm : ∀ s, m s = true) :
    ∀ (n : Nat) (ls : List String), (search_lines path m n ls).length = ls.length := by
  intro n ls
  induction ls generalizing n with
  | nil => rfl
  | cons hd tl ih => simp [search_lines, hm hd, ih]

/-- C2: the spec requires an exception raised inside a task to be caught at the
task boundary in the worker loop, with the remaining queued tasks still
executed. The source calls `task()` with no surrounding try/catch, so the
exception propagates out of the worker loop (terminating the process) and the
task queued behind the raising one is never executed: with queue `[1, 2]` and
task 1 raising, no task completes, the exception escapes, and task 2 is lost. -/
theorem c2_exception_escapes_worker_loop :
    worker_loop_drain
        (fun t => if t == 1 then TaskOutcome.raised else TaskOutcome.completed)
        [1, 2]
      = ([], LoopExit.exceptionEscaped 1) ∧
    2 ∉ (worker_loop_drain
        (fun t => if t == 1 then TaskOutcome.raised else TaskOutcome.completed)
        [1, 2]).1 := by
  exact ⟨rfl, by decide⟩

/-- C8: substring matching is case-fold-consistent — matching query `q` against
line `l` with ignore-case enabled equals matching `lower(q)` against `lower(l)`
case-sensitively, `lower` being the ASCII lowercasing the matcher itself uses. -/
theorem c8_substring_case_fold_consistent (q l : String) :
    (SubstringMatcher.make q true).matchLine l
      = (SubstringMatcher.make (lowerString q) false).matchLine (lowerString l) := by
  simp [SubstringMatcher.make, SubstringMatcher.matchLine]

/-- C10: a `SubstringMatcher` constructed with the empty query matches every
line under either case-sensitivity setting, and consequently a scan of a file
with that matcher reports every line of the file. -/
theorem c10_empty_query_matches_every_line (ic : Bool) (l : String)
    (path : String) (ls : List String) :
    (SubstringMatcher.make "" ic).matchLine l = true ∧
    (search_file path (some ls)
        (fun s => (SubstringMatcher.make "" ic).matchLine s)).length = ls.length := by
  refine ⟨make_empty_matches ic l, ?_⟩
  simpa [search_file] using
    search_lines_length_all path _ (fun s => make_empty_matches ic s) 0 ls

/-- C9: a scan task whose file fails to open returns immediately with no
output and no error, and removing such an entry from the traversal leaves the
output of the whole run unchanged — the rest of the run is unaffected. -/
theorem c9_unopenable_file_skipped (m : String → Bool) (eng : RegexEngine)
    (o : SearchOptions) (mi : MatcherImpl) (pre post : List DirEntry)
    (e : DirEntry) (h : e.lines = none) :
    search_file e.path e.lines m = [] ∧
    run_search eng o mi (pre ++ e :: post) = run_search eng o mi (pre ++ post) := by
  constructor
  · rw [h]
    rfl
  · unfold run_search walk_directory
    rw [List.filter_append, List.filter_append, List.filter_cons]
    by_cases hk : entry_kept o e
    · simp [hk, h, search_file]
    · simp [hk]

/-- Witness for C9 at a concrete unopenable entry. -/
theorem c9_unopenable_file_skipped_witness :
    ({ path := "locked.txt", is_regular_file := true, bytes := [], ext := "",
       lines := none } : DirEntry).lines = none ∧
    (search_file "locked.txt" none (fun _ => true) = [] ∧
     run_search trivialEngine {}
        (MatcherImpl.substring (SubstringMatcher.make "x" false))
        ([] ++ ({ path := "locked.txt", is_regular_file := true, bytes := [],
                  ext := "", lines := none } : DirEntry) :: []) =
       run_search trivialEngine {}
        (MatcherImpl.substring (SubstringMatcher.make "x" false)) ([] ++ [])) :=
  ⟨rfl, c9_unopenable_file_skipped (fun _ => true) trivialEngine {}
    (MatcherImpl.substring (SubstringMatcher.make "x" false)) [] []
    { path := "locked.txt", is_regular_file := true, bytes := [], ext := "",
      lines := none } rfl⟩

/-- C7: a file whose first 512 bytes contain a NUL byte is flagged binary and
is never submitted as a scan task by the walker, whatever the extension filter
says; a file with no NUL in that prefix is not flagged binary. -/
theorem c7_binary_file_always_skipped (e : DirEntry) (o : SearchOptions)
    (entries : List DirEntry) :
    ((0 : Nat) ∈ e.bytes.take 512 →
      is_binary_file e.bytes = true ∧ e ∉ walk_directory o entries) ∧
    ((0 : Nat) ∉ e.bytes.take 512 → is_binary_file e.bytes = false) := by
  constructor
  · intro h0
    have hb : is_binary_file e.bytes = true := by
      simp only [is_binary_file, List.any_eq_true]
      exact ⟨0, h0, rfl⟩
    refine ⟨hb, ?_⟩
    intro hmem
    have hkept := (List.mem_filter.mp hmem).2
    simp [entry_kept, hb] at hkept
  · intro h0
    simp only [is_binary_file, List.any_eq_false]
    intro b hb
    simp only [beq_iff_eq]
    intro hb0
    exact h0 (hb0 ▸ hb)

/-- Witness for C7: a NUL in byte 2 of a three-byte file excludes it from the
walk even though its extension matches the active `--ext=.log` filter. -/
theorem c7_binary_file_always_skipped_witness :
    (0 : Nat) ∈ ([65, 0, 66] : List Nat).take 512 ∧
    (is_binary_file [65, 0, 66] = true ∧
     ({ path := "data.log", is_regular_file := true, bytes := [65, 0, 66],
        ext := ".log", lines := some ["secret"] } : DirEntry) ∉
       walk_directory { file_extension := some ".log" }
         [{ path := "data.log", is_regular_file := true, bytes := [65, 0, 66],
            ext := ".log", lines := some ["secret"] }]) :=
  ⟨by decide,
   (c7_binary_file_always_skipped
      { path := "data.log", is_regular_file := true, bytes := [65, 0, 66],
        ext := ".log", lines := some ["secret"] }
      { file_extension := some ".log" }
      [{ path := "data.log", is_regular_file := true, bytes := [65, 0, 66],
         ext := ".log", lines := some ["secret"] }]).1 (by decide)⟩

/-- The `search_file` line loop agrees with the position-indexed description of
its output, for any starting value of the line counter. -/
theorem search_lines_expected (path : String) (m : String → Bool) :
    ∀ (ls : List String) (n : Nat),
      search_lines path m n ls
        = (List.range ls.length).filterMap (fun i =>
            if m (ls.getD i "") then
              some (format_record path (n + i + 1) (ls.getD i ""))
            else none) := by
  intro ls
  induction ls with
  | nil => intro n; rfl
  | cons hd tl ih =>
    intro n
    have hfun :
        ((fun i => if m ((hd :: tl).getD i "") then
            some (format_record path (n + i + 1) ((hd :: tl).getD i ""))
          else none) ∘ (fun j => j + 1))
        = (fun i => if m (tl.getD i "") then
            some (format_record path (n + 1 + i + 1) (tl.getD i ""))
          else none) := by
      funext j
      simp only [Function.comp_apply, List.getD_cons_succ]
      have harith : n + (j + 1) + 1 = n + 1 + j + 1 := by omega
      rw [harith]
    simp only [search_lines, List.length_cons, List.range_succ_eq_map,
      List.filterMap_cons, List.filterMap_map, List.getD_cons_zero, hfun,
      ih (n + 1), Nat.add_zero]
    by_cases hm : m hd <;> simp [hm]

/-- C4 counterexample: in the scenario of the claim — query `error`, no flags,
a directory whose `a.txt` has `an error occurred` as line 2 — the single output
record is `"dir/a.txt":2: an error occurred`: the stream insertion of
`std::filesystem::path` writes the path surrounded by double quotes, so no
output line contains the claimed unquoted fragment `a.txt:2: an error occurred`. -/
theorem c4_counterexample :
    (mainRun trivialEngine ["mb_grep", "error", "dir"]
        [{ path := "dir/a.txt", is_regular_file := true, bytes := [104],
           ext := ".txt", lines := some ["hello world", "an error occurred"] }]).stdoutLines
      = ["\"dir/a.txt\":2: an error occurred"] ∧
    strContains "\"dir/a.txt\":2: an error occurred" "a.txt:2: an error occurred"
      = false := by
  constructor
  · rfl
  · decide

/-- C4 amended: each matching line yields exactly one record, of the form
`"<file-path>":<line-number>: <line-content>` — the path double-quoted (and
backslash-escaped) as the `std::filesystem::path` stream insertion writes it —
newline-terminated; the claimed scenario produces the output line
`"dir/a.txt":2: an error occurred`, which contains `a.txt":2: an error occurred`. -/
theorem c4_one_quoted_record_per_match (path : String) (m : String → Bool)
    (ls : List String) :
    search_file path (some ls) m = expected_records path m ls ∧
    (mainRun trivialEngine ["mb_grep", "error", "dir"]
        [{ path := "dir/a.txt", is_regular_file := true, bytes := [104],
           ext := ".txt", lines := some ["hello world", "an error occurred"] }]).stdoutLines
      = ["\"dir/a.txt\":2: an error occurred"] ∧
    strContains "\"dir/a.txt\":2: an error occurred" "a.txt\":2: an error occurred"
      = true := by
  refine ⟨?_, rfl, by decide⟩
  have h := search_lines_expected path m ls 0
  simp only [Nat.zero_add] at h
  simpa [search_file, expected_records] using h

/-- C3 counterexample: with a malformed regex query and `--regex` set, matcher
construction raises, the run aborts before any task is scheduled and with no
search output — but the top-level handler catches the exception, prints it to
standard error, and `main` falls through to `return 0`: the exit code is 0,
not nonzero as claimed. The filesystem even contains a matching file, which is
never scanned. -/
theorem c3_counterexample :
    mainRun failingEngine ["mb_grep", "(", "dir", "--regex"]
        [{ path := "dir/b.txt", is_regular_file := true, bytes := [40],
           ext := ".txt", lines := some ["(match me)"] }]
      = { exitCode := 0, stdoutLines := [],
          stderrLines := ["Exception: regex_error"], tasks := [] } := by
  rfl

/-- C3 amended: for every run whose query is a malformed regex and whose
`--regex` flag is set, matcher construction fails with a pattern error and the
run aborts before any task is scheduled, producing no search output; the error
message is printed to standard error and the process exit code is 0, the
top-level catch handler continuing to `return 0`. -/
theorem c3_pattern_error_aborts_before_scheduling (eng : RegexEngine)
    (args : List String) (entries : List DirEntry)
    (hlen : ¬ args.length < 3)
    (hre : (extract_arguments args).use_regex = true)
    (hbad : eng.valid (extract_arguments args).query
        (extract_arguments args).ignore_case = false) :
    mainRun eng args entries
      = { exitCode := 0, stdoutLines := [],
          stderrLines := ["Exception: regex_error"], tasks := [] } := by
  unfold mainRun
  rw [if_neg hlen]
  unfold mainRunChecked
  simp [create_matcher, hre, hbad]

/-- Witness for C3 (amended) at the concrete malformed pattern `(`. -/
theorem c3_pattern_error_aborts_before_scheduling_witness :
    (¬ (["mb_grep", "(", "dir", "--regex"] : List String).length < 3) ∧
    (extract_arguments ["mb_grep", "(", "dir", "--regex"]).use_regex = true ∧
    failingEngine.valid (extract_arguments ["mb_grep", "(", "dir", "--regex"]).query
        (extract_arguments ["mb_grep", "(", "dir", "--regex"]).ignore_case = false ∧
    mainRun failingEngine ["mb_grep", "(", "dir", "--regex"] []
      = { exitCode := 0, stdoutLines := [],
          stderrLines := ["Exception: regex_error"], tasks := [] } :=
  ⟨by decide, by decide, rfl,
    c3_pattern_error_aborts_before_scheduling failingEngine
      ["mb_grep", "(", "dir", "--regex"] [] (by decide) (by decide) rfl⟩

/-! ### Counting helpers for the pool model -/

/-- Updating one position of a list shifts `countP` by the indicator change at
that position, stated additively. -/
theorem countP_set_add {α : Type} (p : α → Bool) :
    ∀ (l : List α) (i : Nat) (a b : α), l[i]? = some b →
      (l.set i a).countP p + (if p b then 1 else 0)
        = l.countP p + (if p a then 1 else 0) := by
  intro l
  induction l with
  | nil => intro i a b h; simp at h
  | cons hd tl ih =>
    intro i a b h
    cases i with
    | zero =>
      rw [List.getElem?_cons_zero] at h
      cases h
      simp only [List.set_cons_zero, List.countP_cons]
      omega
    | succ j =>
      rw [List.getElem?_cons_succ] at h
      simp only [List.set_cons_succ, List.countP_cons]
      have := ih j a b h
      omega

/-- A list with one position overwritten contains the written element. -/
theorem mem_set_self {α : Type} (l : List α) (i : Nat) (a : α)
    (h : i < l.length) : a ∈ l.set i a := by
  have h2 : i < (l.set i a).length := by simpa using h
  have h3 : (l.set i a)[i] = a := List.getElem_set_self h2
  have h4 := List.getElem_mem h2
  rw [h3] at h4
  exact h4

/-- Counting occurrences of a task in the execution log equals the length of
the log filtered to that task. -/
theorem count_map_snd (l : List (Nat × Nat)) (t : Nat) :
    (l.map Prod.snd).count t = (l.filter (fun p => p.2 == t)).length := by
  induction l with
  | nil => rfl
  | cons hd tl ih =>
    by_cases h : hd.2 = t
    · simp [List.count_cons, List.filter_cons, h, ih]
    · simp [List.count_cons, List.filter_cons, h, ih]

/-! ### Step lemmas for the pool model -/

/-- Under a behavior map on which every task completes, no task raises. -/
theorem no_raise_of_all_completed {beh : Nat → TaskOutcome}
    (hall : ∀ t, beh t = TaskOutcome.completed) {t : Nat}
    (hbeh : beh t = TaskOutcome.raised) : False := by
  rw [hall t] at hbeh
  simp at hbeh

/-- No step changes the number of worker threads. -/
theorem poolStep_workers_length {beh : Nat → TaskOutcome} {s : PoolState}
    {a : Act} {s' : PoolState}
    (h : PoolStep beh s a s') : s'.workers.length = s.workers.length := by
  cases h <;> simp [PoolState.submitTask, PoolState.setStopFlag]

/-- Task conservation is preserved by every step of a run whose tasks all
complete normally (a raising task would instead crash its worker with the held
occurrence lost). -/
theorem countsOK_step {beh : Nat → TaskOutcome}
    (hall : ∀ t, beh t = TaskOutcome.completed) {s : PoolState} {a : Act}
    {s' : PoolState}
    (h : PoolStep beh s a s') (hc : CountsOK s) : CountsOK s' := by
  intro t
  have hct := hc t
  cases h with
  | submit t0 =>
    simp only [PoolState.submitTask, execCount, heldCount, List.count_append] at hct ⊢
    omega
  | setStop =>
    simpa only [PoolState.setStopFlag, execCount, heldCount] using hct
  | dequeue i t0 rest hw hq =>
    have hset := countP_set_add (fun w => w == WorkerState.holding t) s.workers i
      (WorkerState.holding t0) WorkerState.idle hw
    have hqc : s.queue.count t = rest.count t + (if t0 == t then 1 else 0) := by
      rw [hq, List.count_cons]
    simp only [execCount, heldCount] at hct ⊢
    by_cases ht : t0 = t
    · subst ht
      simp only [beq_self_eq_true, if_true] at hqc
      simp at hset
      omega
    · simp [ht] at hset hqc
      omega
  | finishTask i t0 hw hbeh =>
    have hset := countP_set_add (fun w => w == WorkerState.holding t) s.workers i
      WorkerState.idle (WorkerState.holding t0) hw
    simp only [execCount, heldCount, List.map_append, List.count_append] at hct ⊢
    by_cases ht : t0 = t
    · subst ht
      simp at hset
      simp only [List.map_cons, List.map_nil, List.count_cons, beq_self_eq_true,
        if_true, List.count_nil]
      omega
    · simp [ht] at hset
      simp only [List.map_cons, List.map_nil, List.count_cons, List.count_nil]
      simp [ht]
      omega
  | raiseTask i t0 hw hbeh =>
    exact (no_raise_of_all_completed hall hbeh).elim
  | exitLoop i hw hstop hq =>
    have hset := countP_set_add (fun w => w == WorkerState.holding t) s.workers i
      WorkerState.done WorkerState.idle hw
    simp only [execCount, heldCount] at hct ⊢
    simp at hset
    omega

/-- The alive-phase invariant is preserved by every non-shutdown step of a run
whose tasks all complete normally. -/
theorem runStep_inv1 {beh : Nat → TaskOutcome}
    (hall : ∀ t, beh t = TaskOutcome.completed) {n : Nat} {s s' : PoolState}
    (h : RunStep beh s s') (hi : Inv1 n s) : Inv1 n s' := by
  obtain ⟨a, hne, hstep⟩ := h
  obtain ⟨hstop, hlen, hnd, hc⟩ := hi
  have hc' := countsOK_step hall hstep hc
  have hlen' : s'.workers.length = n := by
    rw [poolStep_workers_length hstep, hlen]
  cases hstep with
  | submit t0 => exact ⟨hstop, hlen', hnd, hc'⟩
  | setStop => exact absurd rfl hne
  | dequeue i t0 rest hw hq =>
    refine ⟨hstop, hlen', ?_, hc'⟩
    intro w hwmem
    rcases List.mem_or_eq_of_mem_set hwmem with h1 | h1
    · exact hnd w h1
    · subst h1
      exact ⟨by simp, by simp⟩
  | finishTask i t0 hw hbeh =>
    refine ⟨hstop, hlen', ?_, hc'⟩
    intro w hwmem
    rcases List.mem_or_eq_of_mem_set hwmem with h1 | h1
    · exact hnd w h1
    · subst h1
      exact ⟨by simp, by simp⟩
  | raiseTask i t0 hw hbeh =>
    exact (no_raise_of_all_completed hall hbeh).elim
  | exitLoop i hw hstop2 hq =>
    rw [hstop] at hstop2
    cases hstop2

/-- The alive-phase invariant holds in the constructor's state. -/
theorem inv1_init (n : Nat) : Inv1 n (initState n) := by
  refine ⟨rfl, by simp [initState], ?_, ?_⟩
  · intro w hw
    have := List.eq_of_mem_replicate hw
    subst this
    exact ⟨by simp, by simp⟩
  · intro t
    simp only [initState, execCount, heldCount]
    have : (List.replicate n WorkerState.idle).countP
        (fun w => w == WorkerState.holding t) = 0 := by
      apply List.countP_eq_zero.mpr
      intro w hw
      have := List.eq_of_mem_replicate hw
      subst this
      simp
    simp [this]

/-- The alive-phase invariant holds in every state of a normally-completing run
reachable before the destructor sets the stop flag. -/
theorem inv1_reachable {beh : Nat → TaskOutcome}
    (hall : ∀ t, beh t = TaskOutcome.completed) {n : Nat} {s : PoolState}
    (h : Relation.ReflTransGen (RunStep beh) (initState n) s) : Inv1 n s := by
  induction h with
  | refl => exact inv1_init n
  | tail _ hstep ih => exact runStep_inv1 hall hstep ih

/-- Worker steps do not change the stop flag. -/
theorem wstep_stop {beh : Nat → TaskOutcome} {s s' : PoolState}
    (h : WStep beh s s') : s'.stop = s.stop := by
  obtain ⟨a, ha, hstep⟩ := h
  cases hstep with
  | submit t0 => rfl
  | setStop => simp [Act.isWorker] at ha
  | dequeue i t0 rest hw hq => rfl
  | finishTask i t0 hw hbeh => rfl
  | raiseTask i t0 hw hbeh => rfl
  | exitLoop i hw hstop hq => rfl

/-- Worker steps do not change the ghost submission log. -/
theorem wstep_submitted {beh : Nat → TaskOutcome} {s s' : PoolState}
    (h : WStep beh s s') : s'.submitted = s.submitted := by
  obtain ⟨a, ha, hstep⟩ := h
  cases hstep with
  | submit t0 => simp [Act.isWorker] at ha
  | setStop => simp [Act.isWorker] at ha
  | dequeue i t0 rest hw hq => rfl
  | finishTask i t0 hw hbeh => rfl
  | raiseTask i t0 hw hbeh => rfl
  | exitLoop i hw hstop hq => rfl

/-- The ghost submission log is constant along the destructor's drain. -/
theorem wsteps_submitted {beh : Nat → TaskOutcome} {s s' : PoolState}
    (h : Relation.ReflTransGen (WStep beh) s s') : s'.submitted = s.submitted := by
  induction h with
  | refl => rfl
  | tail _ hstep ih => rw [wstep_submitted hstep, ih]

/-- The drain-phase invariant is preserved by worker steps of a
normally-completing run. -/
theorem wstep_inv2 {beh : Nat → TaskOutcome}
    (hall : ∀ t, beh t = TaskOutcome.completed) {s s' : PoolState}
    (h : WStep beh s s') (hi : Inv2 s) : Inv2 s' := by
  obtain ⟨a, ha, hstep⟩ := h
  obtain ⟨hstop, hc, hqw, hnc⟩ := hi
  cases hstep with
  | submit t0 => simp [Act.isWorker] at ha
  | setStop => simp [Act.isWorker] at ha
  | dequeue i t0 rest hw hq =>
    refine ⟨hstop, countsOK_step hall (PoolStep.dequeue s i t0 rest hw hq) hc, ?_, ?_⟩
    · intro _
      have hlt : i < s.workers.length := by
        rcases List.getElem?_eq_some_iff.mp hw with ⟨h1, _⟩
        exact h1
      exact ⟨WorkerState.holding t0,
        mem_set_self s.workers i (WorkerState.holding t0) hlt, by simp⟩
    · intro w hwmem
      rcases List.mem_or_eq_of_mem_set hwmem with h1 | h1
      · exact hnc w h1
      · subst h1
        simp
  | finishTask i t0 hw hbeh =>
    refine ⟨hstop, countsOK_step hall (PoolStep.finishTask s i t0 hw hbeh) hc, ?_, ?_⟩
    · intro _
      have hlt : i < s.workers.length := by
        rcases List.getElem?_eq_some_iff.mp hw with ⟨h1, _⟩
        exact h1
      exact ⟨WorkerState.idle,
        mem_set_self s.workers i WorkerState.idle hlt, by simp⟩
    · intro w hwmem
      rcases List.mem_or_eq_of_mem_set hwmem with h1 | h1
      · exact hnc w h1
      · subst h1
        simp
  | raiseTask i t0 hw hbeh =>
    exact (no_raise_of_all_completed hall hbeh).elim
  | exitLoop i hw hstop2 hq =>
    refine ⟨hstop, countsOK_step hall (PoolStep.exitLoop s i hw hstop2 hq) hc, ?_, ?_⟩
    · intro hne
      exact absurd hq hne
    · intro w hwmem
      rcases List.mem_or_eq_of_mem_set hwmem with h1 | h1
      · exact hnc w h1
      · subst h1
        simp

/-- The drain-phase invariant holds along the whole drain of a
normally-completing run. -/
theorem inv2_chain {beh : Nat → TaskOutcome}
    (hall : ∀ t, beh t = TaskOutcome.completed) {s s' : PoolState}
    (h : Relation.ReflTransGen (WStep beh) s s') (hi : Inv2 s) : Inv2 s' := by
  induction h with
  | refl => exact hi
  | tail _ hstep ih => exact wstep_inv2 hall hstep ih

/-- When every worker has exited, the queue is empty and every submitted
occurrence of every task has been executed. -/
theorem allDone_drained {s : PoolState} (hi : Inv2 s) (hd : AllDone s) :
    s.queue = [] ∧ ∀ t, execCount s t = s.submitted.count t := by
  obtain ⟨hstop, hc, hqw, hnc⟩ := hi
  have hq : s.queue = [] := by
    by_contra h
    obtain ⟨w, hwmem, hwne⟩ := hqw h
    exact hwne (hd w hwmem)
  refine ⟨hq, ?_⟩
  intro t
  have hheld : heldCount s t = 0 := by
    apply List.countP_eq_zero.mpr
    intro w hw
    have := hd w hw
    subst this
    simp
  have hct := hc t
  rw [hq] at hct
  simp only [List.count_nil] at hct
  omega

/-- Every worker step — the crash of a raising task included — strictly
decreases the drain measure. -/
theorem wstep_measure {beh : Nat → TaskOutcome} {s s' : PoolState}
    (h : WStep beh s s') : poolMeasure s' < poolMeasure s := by
  obtain ⟨a, ha, hstep⟩ := h
  cases hstep with
  | submit t0 => simp [Act.isWorker] at ha
  | setStop => simp [Act.isWorker] at ha
  | dequeue i t0 rest hw hq =>
    have hH := countP_set_add WorkerState.isHoldingB s.workers i
      (WorkerState.holding t0) WorkerState.idle hw
    have hN := countP_set_add WorkerState.notDoneB s.workers i
      (WorkerState.holding t0) WorkerState.idle hw
    simp [WorkerState.isHoldingB, WorkerState.notDoneB] at hH hN
    simp only [poolMeasure, hq, List.length_cons]
    omega
  | finishTask i t0 hw hbeh =>
    have hH := countP_set_add WorkerState.isHoldingB s.workers i
      WorkerState.idle (WorkerState.holding t0) hw
    have hN := countP_set_add WorkerState.notDoneB s.workers i
      WorkerState.idle (WorkerState.holding t0) hw
    simp [WorkerState.isHoldingB, WorkerState.notDoneB] at hH hN
    simp only [poolMeasure]
    omega
  | raiseTask i t0 hw hbeh =>
    have hH := countP_set_add WorkerState.isHoldingB s.workers i
      WorkerState.crashed (WorkerState.holding t0) hw
    have hN := countP_set_add WorkerState.notDoneB s.workers i
      WorkerState.crashed (WorkerState.holding t0) hw
    simp [WorkerState.isHoldingB, WorkerState.notDoneB] at hH hN
    simp only [poolMeasure]
    omega
  | exitLoop i hw hstop hq =>
    have hH := countP_set_add WorkerState.isHoldingB s.workers i
      WorkerState.done WorkerState.idle hw
    have hN := countP_set_add WorkerState.notDoneB s.workers i
      WorkerState.done WorkerState.idle hw
    simp [WorkerState.isHoldingB, WorkerState.notDoneB] at hH hN
    simp only [poolMeasure]
    omega

/-- Worker steps of a normally-completing run never crash a worker. -/
theorem wstep_nocrash {beh : Nat → TaskOutcome}
    (hall : ∀ t, beh t = TaskOutcome.completed) {s s' : PoolState}
    (h : WStep beh s s')
    (hnc : ∀ w ∈ s.workers, w ≠ WorkerState.crashed) :
    ∀ w ∈ s'.workers, w ≠ WorkerState.crashed := by
  obtain ⟨a, ha, hstep⟩ := h
  cases hstep with
  | submit t0 => exact hnc
  | setStop => exact hnc
  | dequeue i t0 rest hw hq =>
    intro w hwmem
    rcases List.mem_or_eq_of_mem_set hwmem with h1 | h1
    · exact hnc w h1
    · subst h1
      simp
  | finishTask i t0 hw hbeh =>
    intro w hwmem
    rcases List.mem_or_eq_of_mem_set hwmem with h1 | h1
    · exact hnc w h1
    · subst h1
      simp
  | raiseTask i t0 hw hbeh =>
    exact (no_raise_of_all_completed hall hbeh).elim
  | exitLoop i hw hstop hq =>
    intro w hwmem
    rcases List.mem_or_eq_of_mem_set hwmem with h1 | h1
    · exact hnc w h1
    · subst h1
      simp

/-- After the stop flag is set, a worker that has neither exited nor crashed
always has an enabled step: run the held task (completing or raising), dequeue,
or take the exit branch. -/
theorem wstep_progress (beh : Nat → TaskOutcome) {s : PoolState}
    (hstop : s.stop = true)
    (hnc : ∀ w ∈ s.workers, w ≠ WorkerState.crashed)
    (hnd : ¬ AllDone s) : ∃ s', WStep beh s s' := by
  have hex : ∃ w ∈ s.workers, w ≠ WorkerState.done := by
    by_contra h
    push_neg at h
    exact hnd h
  obtain ⟨w, hw, hwne⟩ := hex
  obtain ⟨i, hlt, hieq⟩ := List.mem_iff_getElem.mp hw
  have hopt : s.workers[i]? = some w := by
    rw [List.getElem?_eq_getElem hlt, hieq]
  cases w with
  | done => exact absurd rfl hwne
  | crashed => exact absurd rfl (hnc _ hw)
  | holding t0 =>
    cases hbeh : beh t0 with
    | completed =>
      exact ⟨_, Act.finishTask i, rfl, PoolStep.finishTask s i t0 hopt hbeh⟩
    | raised =>
      exact ⟨_, Act.raiseTask i, rfl, PoolStep.raiseTask s i t0 hopt hbeh⟩
  | idle =>
    cases hq : s.queue with
    | nil => exact ⟨_, Act.exitLoop i, rfl, PoolStep.exitLoop s i hopt hstop hq⟩
    | cons t0 rest => exact ⟨_, Act.dequeue i, rfl, PoolStep.dequeue s i t0 rest hopt hq⟩

/-- Termination of the destructor's drain of a normally-completing run: from
any crash-free state with the stop flag set, some finite sequence of worker
steps reaches a state where every worker has exited. -/
theorem drain_exists_aux {beh : Nat → TaskOutcome}
    (hall : ∀ t, beh t = TaskOutcome.completed) :
    ∀ (k : Nat) (s : PoolState), poolMeasure s ≤ k → s.stop = true →
      (∀ w ∈ s.workers, w ≠ WorkerState.crashed) →
      ∃ s', Relation.ReflTransGen (WStep beh) s s' ∧ AllDone s' := by
  intro k
  induction k with
  | zero =>
    intro s hm hstop hnc
    refine ⟨s, Relation.ReflTransGen.refl, ?_⟩
    have h0 : s.workers.countP WorkerState.notDoneB = 0 := by
      simp only [poolMeasure] at hm
      omega
    intro w hw
    have := List.countP_eq_zero.mp h0 w hw
    cases w with
    | idle => simp [WorkerState.notDoneB] at this
    | holding t0 => simp [WorkerState.notDoneB] at this
    | crashed => simp [WorkerState.notDoneB] at this
    | done => rfl
  | succ k ih =>
    intro s hm hstop hnc
    by_cases hd : AllDone s
    · exact ⟨s, Relation.ReflTransGen.refl, hd⟩
    · obtain ⟨s', hstep⟩ := wstep_progress beh hstop hnc hd
      have hlt := wstep_measure hstep
      have hstop' : s'.stop = true := by rw [wstep_stop hstep, hstop]
      have hnc' := wstep_nocrash hall hstep hnc
      obtain ⟨s2, hchain, hdone⟩ := ih s' (by omega) hstop' hnc'
      exact ⟨s2, Relation.ReflTransGen.head hstep hchain, hdone⟩

/-- Combined shutdown property of a normally-completing run: running the pool
from construction, then setting the stop flag and letting the workers run
until all have exited, the queue ends empty and the execution log matches the
submission log exactly. -/
theorem pool_shutdown_drain {beh : Nat → TaskOutcome}
    (hall : ∀ t, beh t = TaskOutcome.completed) {n : Nat} {s0 s1 : PoolState}
    (hn : 1 ≤ n)
    (h0 : Relation.ReflTransGen (RunStep beh) (initState n) s0)
    (h1 : Relation.ReflTransGen (WStep beh) s0.setStopFlag s1)
    (hd : AllDone s1) :
    s1.queue = [] ∧ (∀ t, execCount s1 t = s1.submitted.count t) ∧
      s1.submitted = s0.submitted := by
  obtain ⟨hstop0, hlen0, hnd0, hc0⟩ := inv1_reachable hall h0
  have hi2 : Inv2 s0.setStopFlag := by
    refine ⟨rfl, hc0, ?_, ?_⟩
    · intro _
      have hne : s0.workers ≠ [] := by
        intro h
        rw [h] at hlen0
        simp at hlen0
        omega
      obtain ⟨w, hw⟩ := List.exists_mem_of_ne_nil s0.workers hne
      exact ⟨w, hw, (hnd0 w hw).1⟩
    · intro w hw
      exact (hnd0 w hw).2
  have hdr := allDone_drained (inv2_chain hall h1 hi2) hd
  have hsub := wsteps_submitted h1
  exact ⟨hdr.1, hdr.2, hsub⟩

/-- In a one-worker pool whose worker has crashed, nothing is ever executed
again: no step revives the crashed worker and only workers execute tasks, so
the execution log stays empty in every continuation of the run. -/
theorem crashed_single_worker_executes_nothing (beh : Nat → TaskOutcome)
    (s0 : PoolState) (hw0 : s0.workers = [WorkerState.crashed])
    (he0 : s0.executed = []) :
    ∀ s', Relation.ReflTransGen (AnyStep beh) s0 s' →
      s'.workers = [WorkerState.crashed] ∧ s'.executed = [] := by
  intro s' h
  induction h with
  | refl => exact ⟨hw0, he0⟩
  | tail hsteps hstep ih =>
    obtain ⟨hw, he⟩ := ih
    obtain ⟨a, hstep⟩ := hstep
    cases hstep with
    | submit t0 => exact ⟨hw, he⟩
    | setStop => exact ⟨hw, he⟩
    | dequeue i t0 rest hwi hq =>
      rw [hw] at hwi
      rcases i with _ | j <;> simp at hwi
    | finishTask i t0 hwi hbeh =>
      rw [hw] at hwi
      rcases i with _ | j <;> simp at hwi
    | raiseTask i t0 hwi hbeh =>
      rw [hw] at hwi
      rcases i with _ | j <;> simp at hwi
    | exitLoop i hwi hstop hq =>
      rw [hw] at hwi
      rcases i with _ | j <;> simp at hwi

/-- C1 counterexample: tasks 1 and 2 are both submitted before shutdown even
begins, task 1 is dequeued during the drain and its execution raises; the
exception escapes the worker loop (no try/catch around `task()`), the worker
crashes, and in every possible continuation of the run task 2 is never
executed — refuting the unconditional claim that every submitted task is
executed exactly once. -/
theorem c1_counterexample :
    Relation.ReflTransGen
      (AnyStep (fun t => if t == 1 then TaskOutcome.raised else TaskOutcome.completed))
      (initState 1)
      { queue := [2], executed := [], submitted := [1, 2], stop := true,
        workers := [WorkerState.crashed] } ∧
    (2 : Nat) ∈ (PoolState.mk [2] [] [1, 2] true [WorkerState.crashed]).submitted ∧
    (∀ s', Relation.ReflTransGen
        (AnyStep (fun t => if t == 1 then TaskOutcome.raised else TaskOutcome.completed))
        { queue := [2], executed := [], submitted := [1, 2], stop := true,
          workers := [WorkerState.crashed] } s' →
      (2 : Nat) ∉ s'.executed.map Prod.snd) := by
  refine ⟨?_, by decide, ?_⟩
  · refine Relation.ReflTransGen.head ⟨Act.submit 1, PoolStep.submit _ 1⟩ ?_
    refine Relation.ReflTransGen.head ⟨Act.submit 2, PoolStep.submit _ 2⟩ ?_
    refine Relation.ReflTransGen.head ⟨Act.setStop, PoolStep.setStop _⟩ ?_
    refine Relation.ReflTransGen.head
      ⟨Act.dequeue 0, PoolStep.dequeue _ 0 1 [2] rfl rfl⟩ ?_
    exact Relation.ReflTransGen.single
      ⟨Act.raiseTask 0, PoolStep.raiseTask _ 0 1 rfl rfl⟩
  · intro s' h
    have hrun := crashed_single_worker_executes_nothing _ _ rfl rfl s' h
    rw [hrun.2]
    simp

/-- C1 (amended): provided every task's execution completes normally — the
worker loop has no try/catch, so a raising task crashes its worker and the
process instead — every task submitted to the pool before shutdown is executed
exactly once, by exactly one worker thread, for every thread count from 1 up:
once the destructor's joins complete, the multiset of executed tasks equals
the multiset of submitted tasks, N submissions give exactly N executions, and
a task submitted once appears exactly once in the execution log (hence was run
by exactly one worker). Submissions are modelled as happening while the pool
is alive — in the program the walker finishes before the pool leaves scope. -/
theorem c1_each_task_executed_exactly_once (beh : Nat → TaskOutcome)
    (hall : ∀ t, beh t = TaskOutcome.completed) (n : Nat) (hn : 1 ≤ n)
    (s0 s1 : PoolState)
    (h0 : Relation.ReflTransGen (RunStep beh) (initState n) s0)
    (h1 : Relation.ReflTransGen (WStep beh) s0.setStopFlag s1)
    (hd : AllDone s1) :
    List.Perm (s1.executed.map Prod.snd) s1.submitted ∧
    s1.executed.length = s1.submitted.length ∧
    (∀ t : Nat, s1.submitted.count t = 1 →
      (s1.executed.filter (fun p => p.2 == t)).length = 1) := by
  obtain ⟨hq, hcnt, hsub⟩ := pool_shutdown_drain hall hn h0 h1 hd
  have hperm : List.Perm (s1.executed.map Prod.snd) s1.submitted :=
    List.perm_iff_count.mpr (fun t => hcnt t)
  refine ⟨hperm, by simpa using hperm.length_eq, ?_⟩
  intro t h1t
  have hone : (s1.executed.map Prod.snd).count t = 1 := by
    have h2 := hcnt t
    simp only [execCount] at h2
    rw [h2, h1t]
  rw [count_map_snd] at hone
  exact hone

/-- Witness for C1 (amended): one worker, one normally-completing submitted
task, explicit drain. -/
theorem c1_each_task_executed_exactly_once_witness :
    (∀ t : Nat, (fun _ : Nat => TaskOutcome.completed) t = TaskOutcome.completed) ∧
    1 ≤ 1 ∧
    (List.Perm (([((0 : Nat), (5 : Nat))] : List (Nat × Nat)).map Prod.snd)
        [(5 : Nat)] ∧
     ([((0 : Nat), (5 : Nat))] : List (Nat × Nat)).length
        = ([(5 : Nat)] : List Nat).length ∧
     (∀ t : Nat, ([(5 : Nat)] : List Nat).count t = 1 →
       (([((0 : Nat), (5 : Nat))] : List (Nat × Nat)).filter
           (fun p => p.2 == t)).length = 1)) := by
  refine ⟨fun _ => rfl, le_refl 1, ?_⟩
  have h0 : Relation.ReflTransGen (RunStep (fun _ : Nat => TaskOutcome.completed))
      (initState 1) ((initState 1).submitTask 5) :=
    Relation.ReflTransGen.single ⟨Act.submit 5, by decide, PoolStep.submit _ 5⟩
  have hs1 : WStep (fun _ : Nat => TaskOutcome.completed)
      ((initState 1).submitTask 5).setStopFlag
      { queue := [], executed := [], submitted := [5], stop := true,
        workers := [WorkerState.holding 5] } :=
    ⟨Act.dequeue 0, rfl, PoolStep.dequeue _ 0 5 [] rfl rfl⟩
  have hs2 : WStep (fun _ : Nat => TaskOutcome.completed)
      { queue := [], executed := [], submitted := [5], stop := true,
        workers := [WorkerState.holding 5] }
      { queue := [], executed := [(0, 5)], submitted := [5], stop := true,
        workers := [WorkerState.idle] } :=
    ⟨Act.finishTask 0, rfl, PoolStep.finishTask _ 0 5 rfl rfl⟩
  have hs3 : WStep (fun _ : Nat => TaskOutcome.completed)
      { queue := [], executed := [(0, 5)], submitted := [5], stop := true,
        workers := [WorkerState.idle] }
      { queue := [], executed := [(0, 5)], submitted := [5], stop := true,
        workers := [WorkerState.done] } :=
    ⟨Act.exitLoop 0, rfl, PoolStep.exitLoop _ 0 rfl rfl rfl⟩
  exact c1_each_task_executed_exactly_once (fun _ : Nat => TaskOutcome.completed)
    (fun _ => rfl) 1 (le_refl 1)
    ((initState 1).submitTask 5)
    { queue := [], executed := [(0, 5)], submitted := [5], stop := true,
      workers := [WorkerState.done] }
    h0
    (Relation.ReflTransGen.head hs1
      (Relation.ReflTransGen.head hs2 (Relation.ReflTransGen.single hs3)))
    (fun w hw => List.mem_singleton.mp hw)

/-- C5 counterexample: the pool reaches shutdown with tasks 7 and 8 still
pending in the queue; during the destructor's drain the worker dequeues task 7,
whose execution raises, the exception escapes the worker loop, and in every
possible continuation of the run task 8 — still in the queue at shutdown — is
never executed: a pending task is dropped, refuting the unconditional claim. -/
theorem c5_counterexample :
    Relation.ReflTransGen
      (RunStep (fun t => if t == 7 then TaskOutcome.raised else TaskOutcome.completed))
      (initState 1) (((initState 1).submitTask 7).submitTask 8) ∧
    (((initState 1).submitTask 7).submitTask 8).queue = [7, 8] ∧
    Relation.ReflTransGen
      (WStep (fun t => if t == 7 then TaskOutcome.raised else TaskOutcome.completed))
      (((initState 1).submitTask 7).submitTask 8).setStopFlag
      { queue := [8], executed := [], submitted := [7, 8], stop := true,
        workers := [WorkerState.crashed] } ∧
    (∀ s', Relation.ReflTransGen
        (AnyStep (fun t => if t == 7 then TaskOutcome.raised else TaskOutcome.completed))
        { queue := [8], executed := [], submitted := [7, 8], stop := true,
          workers := [WorkerState.crashed] } s' →
      (8 : Nat) ∉ s'.executed.map Prod.snd) := by
  refine ⟨?_, rfl, ?_, ?_⟩
  · refine Relation.ReflTransGen.head
      ⟨Act.submit 7, by decide, PoolStep.submit _ 7⟩ ?_
    exact Relation.ReflTransGen.single
      ⟨Act.submit 8, by decide, PoolStep.submit _ 8⟩
  · refine Relation.ReflTransGen.head
      ⟨Act.dequeue 0, rfl, PoolStep.dequeue _ 0 7 [8] rfl rfl⟩ ?_
    exact Relation.ReflTransGen.single
      ⟨Act.raiseTask 0, rfl, PoolStep.raiseTask _ 0 7 rfl rfl⟩
  · intro s' h
    have hrun := crashed_single_worker_executes_nothing _ _ rfl rfl s' h
    rw [hrun.2]
    simp

/-- C5 (amended): provided every pending task's execution completes normally —
a raising task instead crashes the drain, the worker loop having no
try/catch — destroying the pool with unexecuted tasks still queued drains them
all: the destructor's joins can complete (a finite drain to all-workers-done
exists), and whenever they do complete the queue is empty and every task that
was pending in the queue at shutdown appears in the execution log. -/
theorem c5_destructor_drains_pending_tasks (beh : Nat → TaskOutcome)
    (hall : ∀ t, beh t = TaskOutcome.completed) (n : Nat) (hn : 1 ≤ n)
    (s0 : PoolState)
    (h0 : Relation.ReflTransGen (RunStep beh) (initState n) s0) :
    (∃ s1, Relation.ReflTransGen (WStep beh) s0.setStopFlag s1 ∧ AllDone s1) ∧
    (∀ s1, Relation.ReflTransGen (WStep beh) s0.setStopFlag s1 → AllDone s1 →
      s1.queue = [] ∧ ∀ t ∈ s0.queue, t ∈ s1.executed.map Prod.snd) := by
  constructor
  · have hnc : ∀ w ∈ s0.setStopFlag.workers, w ≠ WorkerState.crashed := by
      intro w hw
      exact ((inv1_reachable hall h0).2.2.1 w hw).2
    exact drain_exists_aux hall (poolMeasure s0.setStopFlag) s0.setStopFlag
      le_rfl rfl hnc
  · intro s1 h1 hd
    obtain ⟨hq, hcnt, hsub⟩ := pool_shutdown_drain hall hn h0 h1 hd
    refine ⟨hq, ?_⟩
    intro t ht
    have hqpos : 0 < s0.queue.count t := List.count_pos_iff.mpr ht
    have hc0 := (inv1_reachable hall h0).2.2.2 t
    have hspos : 0 < s0.submitted.count t := by
      simp only [execCount, heldCount] at hc0
      omega
    have hexec : 0 < (s1.executed.map Prod.snd).count t := by
      have := hcnt t
      rw [hsub] at this
      simp only [execCount] at this
      omega
    exact List.count_pos_iff.mp hexec

/-- Witness for C5 (amended): one worker and a normally-completing task already
pending in the queue when the destructor starts. -/
theorem c5_destructor_drains_pending_tasks_witness :
    (∀ t : Nat, (fun _ : Nat => TaskOutcome.completed) t = TaskOutcome.completed) ∧
    1 ≤ 1 ∧
    ((∃ s1, Relation.ReflTransGen (WStep (fun _ : Nat => TaskOutcome.completed))
        ((initState 1).submitTask 4).setStopFlag s1 ∧ AllDone s1) ∧
     (∀ s1, Relation.ReflTransGen (WStep (fun _ : Nat => TaskOutcome.completed))
        ((initState 1).submitTask 4).setStopFlag s1 →
        AllDone s1 →
        s1.queue = [] ∧
          ∀ t ∈ ((initState 1).submitTask 4).queue,
            t ∈ s1.executed.map Prod.snd)) :=
  ⟨fun _ => rfl, le_refl 1,
   c5_destructor_drains_pending_tasks (fun _ : Nat => TaskOutcome.completed)
     (fun _ => rfl) 1 (le_refl 1) ((initState 1).submitTask 4)
     (Relation.ReflTransGen.single ⟨Act.submit 4, by decide, PoolStep.submit _ 4⟩)⟩

/-- C6 counterexample: the claim says a submission after shutdown begins is
never accepted; but `ThreadPool::submit` checks nothing — from the reachable
state where the destructor has just set the stop flag in a one-worker pool, a
`submit` step is enabled and appends its task to the (previously empty) queue. -/
theorem c6_counterexample :
    (initState 1).setStopFlag.stop = true ∧
    PoolStep (fun _ : Nat => TaskOutcome.completed) (initState 1).setStopFlag
      (Act.submit 9) ((initState 1).setStopFlag.submitTask 9) ∧
    ((initState 1).setStopFlag.submitTask 9).queue = [9] ∧
    Relation.ReflTransGen (AnyStep (fun _ : Nat => TaskOutcome.completed))
      (initState 1) ((initState 1).setStopFlag.submitTask 9) := by
  refine ⟨rfl, PoolStep.submit _ 9, rfl, ?_⟩
  exact Relation.ReflTransGen.head ⟨Act.setStop, PoolStep.setStop _⟩
    (Relation.ReflTransGen.single ⟨Act.submit 9, PoolStep.submit _ 9⟩)

/-- C6 amended: `submit` performs no stop-flag check — even after shutdown has
begun (stop flag set) a call to `submit` takes a step that appends the task to
the queue, the flag remaining set, whatever the tasks' behaviors. The program
itself never submits after shutdown begins, since the walker returns before
the pool is destroyed. -/
theorem c6_submit_unguarded_after_stop (beh : Nat → TaskOutcome) (s : PoolState)
    (t : Nat) (h : s.stop = true) :
    PoolStep beh s (Act.submit t) (s.submitTask t) ∧
    (s.submitTask t).queue = s.queue ++ [t] ∧
    (s.submitTask t).stop = true :=
  ⟨PoolStep.submit s t, rfl, h⟩

/-- Witness for C6 (amended) on a two-worker pool with the flag set. -/
theorem c6_submit_unguarded_after_stop_witness :
    (initState 2).setStopFlag.stop = true ∧
    (PoolStep (fun _ : Nat => TaskOutcome.completed) (initState 2).setStopFlag
        (Act.submit 3) ((initState 2).setStopFlag.submitTask 3) ∧
     ((initState 2).setStopFlag.submitTask 3).queue
        = (initState 2).setStopFlag.queue ++ [3] ∧
     ((initState 2).setStopFlag.submitTask 3).stop = true) :=
  ⟨rfl, c6_submit_unguarded_after_stop (fun _ : Nat => TaskOutcome.completed)
    (initState 2).setStopFlag 3 rfl⟩

end MbGrep
